import Mathlib

/-!
# Media upload adapter and change-detection helper

A shallow embedding of

* `edit-post/hooks/blocks/media-upload/index.js`: the `MediaUpload` component, which wraps
  the host media frame and forwards the selected attachments to `props.onSelect`;
* `test/e2e/specs/change-detection.test.js`: the helper `assertIsDirty`.

JavaScript values are a small algebraic datatype, objects are association lists in key
order, and a handler is a function from its inputs (props, frame state, event argument) to
the list of calls it issues on its environment together with the exception it raised, if
any.  Functions of other packages (`parseWithAttributeSchema`, `__`, the string conversion
used by `Array.prototype.join`) are fields of a `Host` record.
-/

set_option autoImplicit false

namespace MediaUpload

/-! ## Values -/

/-- JavaScript values.  Numbers are integers here; that is all the adapter needs of
attachment ids. -/
inductive JSVal where
  | undefined
  | null
  | bool (b : Bool)
  | num (n : Int)
  | str (s : String)
  | arr (items : List JSVal)
  | obj (fields : List (String × JSVal))

/-- An object: its own enumerable properties in key order. -/
abbrev Record := List (String × JSVal)

/-- Exceptions a handler can raise. -/
inductive JSError where
  | typeError
  deriving DecidableEq

/-- ECMAScript `ToBoolean`. -/
def truthy : JSVal → Bool
  | .undefined => false
  | .null => false
  | .bool b => b
  | .num n => !(n == 0)
  | .str s => !(s == "")
  | .arr _ => true
  | .obj _ => true

/-- Destructuring default `{ name = dflt }`: the default applies to `undefined` only. -/
def withDefault (v dflt : JSVal) : JSVal :=
  match v with
  | .undefined => dflt
  | _ => v

/-- First binding of `key` in an object. -/
def lookup (key : String) : Record → Option JSVal
  | [] => none
  | (k, v) :: rest => if k = key then some v else lookup key rest

/-- Keys of an object, in order. -/
def keys (r : Record) : List String := r.map Prod.fst

/-- Property read `o[key]` on an object: `undefined` when the key is missing. -/
def getField (r : Record) (key : String) : JSVal := (lookup key r).getD .undefined

/-- Property read `v.key` for a key that no prototype defines: raises on `undefined` and
`null`, reads the own property of an object, and is `undefined` on every other value. -/
def getProp (v : JSVal) (key : String) : Except JSError JSVal :=
  match v with
  | .undefined => .error .typeError
  | .null => .error .typeError
  | .obj fields => .ok (getField fields key)
  | _ => .ok .undefined

/-- Assignment of one property in an object literal after a spread: an existing key keeps
its position, a new key goes last. -/
def setField (key : String) (v : JSVal) : Record → Record
  | [] => [(key, v)]
  | (k, w) :: rest => if k = key then (k, v) :: rest else (k, w) :: setField key v rest

/-- Array index read `xs[i]`: `undefined` past the end. -/
def index (xs : List JSVal) (i : Nat) : JSVal := (xs.get? i).getD .undefined

/-- The method `Array.prototype.map` with a callback that may raise: the first exception
aborts the loop. -/
def mapExcept {α β : Type} (f : α → Except JSError β) : List α → Except JSError (List β)
  | [] => .ok []
  | x :: xs =>
    match f x with
    | .error e => .error e
    | .ok y =>
      match mapExcept f xs with
      | .error e => .error e
      | .ok ys => .ok (y :: ys)

/-- Functions of other packages that the adapter calls. -/
structure Host where
  /-- The call `parseWithAttributeSchema( caption, { source: "children" } )` of
  `@wordpress/blocks`. -/
  parseWithAttributeSchema : JSVal → JSVal
  /-- The translation function `__` of `@wordpress/i18n`. -/
  i18n : String → String
  /-- ECMAScript `ToString`, as used by `Array.prototype.join` on an element. -/
  toStr : JSVal → String
  /-- The items of a selection after `selection.add( wp.media.attachment( id ) )`. -/
  selectionAdd : List JSVal → JSVal → List JSVal

/-! ## lodash -/

/-- The function `pick( object, paths )` of lodash for plain keys: the properties of
`object` named in `paths`, in the order of `paths`. -/
def pick (object : Record) (paths : List String) : Record :=
  paths.filterMap fun path => (lookup path object).map fun v => (path, v)

/-- The function `join( array, separator )` of lodash on an array: `undefined` and `null`
elements give the empty string. -/
def join (host : Host) (array : List JSVal) (separator : String) : String :=
  separator.intercalate (array.map fun el =>
    match el with
    | .undefined => ""
    | .null => ""
    | v => host.toStr v)

/-! ## The media frame, as the adapter sees it -/

/-- A Backbone model: `toJSON` returns a copy of its attributes. -/
structure Model where
  attributes : Record

/-- The method `model.toJSON()`. -/
def Model.toJSON (m : Model) : Record := m.attributes

/-- A `wp.media.model.Selection`: a collection of attachment models. -/
structure Selection where
  models : List Model

/-- The method `selection.toJSON()`: one object per model, in order. -/
def Selection.toJSON (s : Selection) : List JSVal := s.models.map fun m => .obj m.toJSON

/-- The result of `this.frame.state()`: `get( "selection" )` is `undefined` when the state
has no selection. -/
structure FrameState where
  selection : Option Selection

/-- The props the component reads.  `onSelect` and `render` are functions of the parent and
appear as calls in the trace of a handler. -/
structure Props where
  multiple : JSVal
  type : JSVal
  gallery : JSVal
  title : JSVal
  modalClass : JSVal
  value : JSVal

/-- Calls a handler issues on its environment. -/
inductive Effect where
  /-- The call `props.onSelect( arg )`. -/
  | propsOnSelect (arg : JSVal)
  /-- The call `wp.media.attachment( id )`. -/
  | attachment (id : JSVal)
  /-- The call `attachment.fetch()` on the attachment of `id`. -/
  | attachmentFetch (id : JSVal)
  /-- The call `selection.add( attachment )` on the selection of the frame state. -/
  | selectionAdd (id : JSVal)
  /-- The call `wp.media.gallery.attachments( new wp.shortcode( ... ) )` with
  `attrs.ids = ids`. -/
  | galleryAttachments (ids : String)
  /-- The call `selection.more()` on the selection that `loadMultipleAttachments` creates. -/
  | gallerySelectionMore

/-- What a handler did: the calls it issued, in order, and the exception it raised. -/
structure Outcome where
  effects : List Effect
  thrown : Option JSError

/-! ## The component -/

/-- The allow-list of `slimImageObject`. -/
def attrSet : List String :=
  ["sizes", "mime", "type", "subtype", "id", "url", "alt", "link", "caption"]

/-- The function `slimImageObject( img )`. -/
def slimImageObject (img : Record) : Record := pick img attrSet

/-- The method `processMediaCaption( mediaObject )`. -/
def processMediaCaption (host : Host) (mediaObject : JSVal) : Except JSError JSVal :=
  match getProp mediaObject "caption" with
  | .error e => .error e
  | .ok caption =>
    if !truthy caption then .ok mediaObject
    else
      match mediaObject with
      | .obj fields =>
        .ok (.obj (setField "caption" (host.parseWithAttributeSchema caption) fields))
      | _ => .ok mediaObject

/-- The value `selections || state.get( "selection" )` that `onUpdate` works on: the event
argument when it is truthy, the selection of the frame state otherwise. -/
def selectedImages (selections : Option Selection) (state : FrameState) : Option Selection :=
  match selections with
  | some s => some s
  | none => state.selection

/-- The method `onUpdate( selections )`, the handler of the "update" event of the frame. -/
def onUpdate (host : Host) (props : Props) (state : FrameState)
    (selections : Option Selection) : Outcome :=
  let multiple := withDefault props.multiple (.bool false)
  match selectedImages selections state with
  | none => ⟨[], none⟩
  | some selectedImages =>
    match selectedImages.models with
    | [] => ⟨[], none⟩
    | first :: rest =>
      if truthy multiple then
        match mapExcept (fun model : Model =>
            processMediaCaption host (.obj (slimImageObject model.toJSON))) (first :: rest) with
        | .error e => ⟨[], some e⟩
        | .ok records => ⟨[.propsOnSelect (.arr records)], none⟩
      else
        match processMediaCaption host (.obj (slimImageObject first.toJSON)) with
        | .error e => ⟨[], some e⟩
        | .ok record => ⟨[.propsOnSelect record], none⟩

/-- The method `onSelect()`, the handler of the "select" event of the frame. -/
def onSelect (host : Host) (props : Props) (state : FrameState) : Outcome :=
  let multiple := withDefault props.multiple (.bool false)
  match state.selection with
  | none => ⟨[], some .typeError⟩
  | some selection =>
    let attachment := selection.toJSON
    if truthy multiple then
      match mapExcept (processMediaCaption host) attachment with
      | .error e => ⟨[], some e⟩
      | .ok records => ⟨[.propsOnSelect (.arr records)], none⟩
    else
      match processMediaCaption host (index attachment 0) with
      | .error e => ⟨[], some e⟩
      | .ok record => ⟨[.propsOnSelect record], none⟩

/-- The method `loadMultipleAttachments( attachmentsIds )`: requests the gallery
attachments of the ids and loads them into a selection of its own.  The continuation it registers with `done` runs
later and acts on that local selection only. -/
def loadMultipleAttachments (host : Host) (attachmentsIds : List JSVal) : List Effect :=
  [.galleryAttachments (join host attachmentsIds ","), .gallerySelectionMore]

/-- The body of the arrow function that `onOpen` maps over `props.value`. -/
def addAttachment (id : JSVal) : List Effect := [.attachment id, .selectionAdd id]

/-- The method `onOpen()`, the handler of the "open" event of the frame. -/
def onOpen (host : Host) (props : Props) (state : FrameState) : Outcome :=
  if !truthy props.value then ⟨[], none⟩
  else
    let selection := state.selection
    if truthy props.multiple then
      match props.value with
      | .arr ids =>
        match selection, ids with
        | some _, _ => ⟨ids.flatMap addAttachment ++ loadMultipleAttachments host ids, none⟩
        | none, [] => ⟨loadMultipleAttachments host [], none⟩
        | none, id :: _ => ⟨[.attachment id], some .typeError⟩
      | _ => ⟨[], some .typeError⟩
    else
      let id := props.value
      match selection with
      | some _ => ⟨[.attachment id, .attachmentFetch id, .selectionAdd id], none⟩
      | none => ⟨[.attachment id, .attachmentFetch id], some .typeError⟩

/-! ## Effects on the selection of the frame state -/

/-- Whether a call changes the selection of the frame state. -/
def Effect.mutatesSelection : Effect → Bool
  | .selectionAdd _ => true
  | _ => false

/-- The ids of the items of the selection of the frame state after a handler has issued
`effects`, from the ids `items` it held before. -/
def selectionAfter (host : Host) (items : List JSVal) (effects : List Effect) : List JSVal :=
  effects.foldl (fun held e =>
    match e with
    | .selectionAdd id => host.selectionAdd held id
    | _ => held) items

/-! ## The constructor -/

/-- The configuration object `frameConfig` that the constructor assembles. -/
structure FrameConfig where
  title : JSVal
  /-- The object `{ text: __( "Select" ) }`. -/
  button : Record
  multiple : JSVal
  /-- The object `new wp.media.model.Selection( [] )`. -/
  selection : Selection
  /-- The object `{ type }`, when the constructor sets it. -/
  library : Option Record

/-- The frame the constructor creates. -/
inductive Frame where
  /-- The call `wp.media( frameConfig )`. -/
  | media (frameConfig : FrameConfig)
  /-- The call `new GalleryDetailsMediaFrame( options )`. -/
  | galleryDetails (options : Record)

/-- The handlers the constructor subscribes. -/
inductive Handler where
  | onSelect
  | onUpdate
  | onOpen
  deriving DecidableEq

/-- What the constructor leaves behind. -/
structure Component where
  /-- The field `this.frame`. -/
  frame : Frame
  /-- Whether `wp.media.frame` was set to the new frame. -/
  setsGlobalFrame : Bool
  /-- The class passed to `this.frame.$el.addClass`, if that call was made. -/
  addedClass : Option JSVal
  /-- The subscriptions made with `this.frame.on`, in order. -/
  listeners : List (String × Handler)

/-- The constructor of `MediaUpload`. -/
def construct (host : Host) (props : Props) : Component :=
  let multiple := withDefault props.multiple (.bool false)
  let type := props.type
  let gallery := withDefault props.gallery (.bool false)
  let title := withDefault props.title (.str (host.i18n "Select or Upload Media"))
  let modalClass := props.modalClass
  let frameConfig : FrameConfig :=
    ⟨title, [("text", .str (host.i18n "Select"))], multiple, ⟨[]⟩,
      if truthy type then some [("type", type)] else none⟩
  ⟨if truthy gallery then
      .galleryDetails [("frame", .str "select"), ("mimeType", type), ("state", .str "gallery")]
    else .media frameConfig,
    truthy gallery,
    if truthy modalClass then some modalClass else none,
    [("select", .onSelect), ("update", .onUpdate), ("open", .onOpen)]⟩

/-! ## Object identity -/

/-- A store of objects; a reference is a position in it. -/
abbrev Store := List Record

/-- The method `processMediaCaption` on a reference into a store: the falsy branch returns
the reference it was given, the truthy branch allocates the object literal. -/
def processMediaCaptionAt (host : Host) (store : Store) (mediaObject : Nat) :
    Option (Store × Nat) :=
  match store.get? mediaObject with
  | none => none
  | some fields =>
    let caption := getField fields "caption"
    if !truthy caption then some (store, mediaObject)
    else
      some (store ++ [setField "caption" (host.parseWithAttributeSchema caption) fields],
        store.length)

/-! ## A concrete environment -/

/-- An environment on which the handlers can be evaluated: the parser wraps the caption in
a one-element array, the translation is the identity, numbers and strings convert to
their text, and `add` appends an id that the selection does not hold yet. -/
def sampleHost : Host where
  parseWithAttributeSchema := fun caption => .arr [caption]
  i18n := fun s => s
  toStr := fun v =>
    match v with
    | .num n => toString n
    | .str s => s
    | _ => ""
  selectionAdd := fun held id => held ++ [id]

/-- Props that set `multiple` only. -/
def propsMultiple (multiple : JSVal) : Props :=
  ⟨multiple, .undefined, .undefined, .undefined, .undefined, .undefined⟩

/-- Props that set `multiple` and `value` only. -/
def propsValue (multiple value : JSVal) : Props :=
  ⟨multiple, .undefined, .undefined, .undefined, .undefined, value⟩

/-- Props that set `type` and `gallery` only. -/
def propsGallery (type gallery : JSVal) : Props :=
  ⟨.undefined, type, gallery, .undefined, .undefined, .undefined⟩

/-- An attachment as the media library holds it. -/
def sampleImage : Model :=
  ⟨[("id", .num 7), ("filename", .str "a.png"), ("caption", .str "Sea"),
    ("url", .str "/a.png")]⟩

/-- An attachment without a caption. -/
def plainImage : Model :=
  ⟨[("id", .num 8), ("url", .str "/b.png"), ("caption", .str "")]⟩

/-- A selection of two attachments. -/
def sampleSelection : Selection := ⟨[sampleImage, plainImage]⟩

end MediaUpload

namespace ChangeDetection

/-! ## The helper `assertIsDirty` -/

/-- What `page.reload()` does while the helper waits for it: the dialogs it raises, in
order, and whether the returned promise resolves. -/
structure Reload where
  dialogs : List Nat
  completes : Bool

/-- The local state of one call of `assertIsDirty`. -/
structure Locals where
  /-- The dialogs on which `accept()` was called, in order. -/
  accepted : List Nat
  hadDialog : Bool

/-- Why a call of `assertIsDirty` rejects. -/
inductive Failure where
  /-- The promise of `page.reload()` rejected. -/
  | reload
  /-- The expectation `expect( received ).toBe( expected )` failed. -/
  | expectation (received expected : Bool)
  deriving DecidableEq

/-- The result of one call of `assertIsDirty`. -/
structure Run where
  accepted : List Nat
  /-- Whether `handleOnDialog` is still subscribed when the call settles. -/
  listening : Bool
  result : Except Failure Unit

/-- The listener `handleOnDialog( dialog )`. -/
def handleOnDialog (s : Locals) (dialog : Nat) : Locals :=
  ⟨s.accepted ++ [dialog], true⟩

/-- The helper `assertIsDirty( isDirty )`. -/
def assertIsDirty (isDirty : Bool) (reload : Reload) : Run :=
  let s := reload.dialogs.foldl handleOnDialog ⟨[], false⟩
  if reload.completes then
    if s.hadDialog = isDirty then ⟨s.accepted, false, .ok ()⟩
    else ⟨s.accepted, false, .error (.expectation s.hadDialog isDirty)⟩
  else ⟨s.accepted, false, .error .reload⟩

end ChangeDetection

/-! # Properties -/

namespace MediaUpload

/-! ## Objects -/

theorem lookup_isSome_iff (key : String) (r : Record) :
    (lookup key r).isSome = true ↔ key ∈ keys r := by
  induction r with
  | nil => simp [lookup, keys]
  | cons p rest ih =>
    obtain ⟨k, v⟩ := p
    by_cases h : k = key
    · simp [lookup, keys, h]
    · have h2 : ¬ key = k := fun e => h e.symm
      simpa [lookup, keys, h, h2] using ih

theorem keys_setField (key : String) (v : JSVal) (r : Record) (h : key ∈ keys r) :
    keys (setField key v r) = keys r := by
  induction r with
  | nil => simp [keys] at h
  | cons p rest ih =>
    obtain ⟨k, w⟩ := p
    by_cases hk : k = key
    · simp [setField, keys, hk]
    · have h2 : ¬ key = k := fun e => hk e.symm
      have hrest : key ∈ keys rest := by simpa [keys, h2] using h
      have := ih hrest
      simp only [keys] at this
      simp [setField, keys, hk, this]

theorem lookup_setField_self (key : String) (v : JSVal) (r : Record) :
    lookup key (setField key v r) = some v := by
  induction r with
  | nil => simp [setField, lookup]
  | cons p rest ih =>
    obtain ⟨k, w⟩ := p
    by_cases hk : k = key
    · simp [setField, lookup, hk]
    · simp [setField, lookup, hk, ih]

theorem lookup_setField_of_ne (key k : String) (v : JSVal) (r : Record) (h : k ≠ key) :
    lookup k (setField key v r) = lookup k r := by
  induction r with
  | nil =>
    have h2 : ¬ key = k := fun e => h e.symm
    simp [setField, lookup, h2]
  | cons p rest ih =>
    obtain ⟨k2, w⟩ := p
    by_cases hk : k2 = key
    · subst hk
      have h2 : ¬ k2 = k := fun e => h e.symm
      simp [setField, lookup, h2]
    · by_cases hk2 : k2 = k
      · subst hk2
        simp [setField, lookup, hk]
      · simp [setField, lookup, hk, hk2, ih]

theorem keys_pick (object : Record) (paths : List String) :
    keys (pick object paths) = paths.filter fun k => decide (k ∈ keys object) := by
  induction paths with
  | nil => simp [pick, keys]
  | cons path rest ih =>
    simp only [pick, keys] at ih
    cases hl : lookup path object with
    | none =>
      have hn : ¬ path ∈ keys object := by
        rw [← lookup_isSome_iff, hl]; simp
      simp only [keys] at hn
      simp only [pick, keys, List.filterMap_cons, hl, Option.map_none', List.filter_cons, hn,
        decide_False, Bool.false_eq_true, if_false]
      exact ih
    | some v =>
      have hn : path ∈ keys object := by
        rw [← lookup_isSome_iff, hl]; simp
      simp only [keys] at hn
      simp only [pick, keys, List.filterMap_cons, hl, Option.map_some', List.filter_cons, hn,
        decide_True, if_true, List.map_cons]
      rw [ih]

theorem lookup_pick (object : Record) (paths : List String) (k : String) :
    lookup k (pick object paths) = if k ∈ paths then lookup k object else none := by
  induction paths with
  | nil => simp [pick, lookup]
  | cons path rest ih =>
    simp only [pick] at ih
    by_cases hk : path = k
    · subst hk
      cases hl : lookup path object with
      | none =>
        simp [pick, List.filterMap_cons, hl, ih]
      | some v =>
        simp [pick, List.filterMap_cons, hl, lookup]
    · have h2 : ¬ k = path := fun e => hk e.symm
      cases hl : lookup path object with
      | none =>
        simp [pick, List.filterMap_cons, hl, ih, h2]
      | some v =>
        simp [pick, List.filterMap_cons, hl, lookup, hk, ih, h2]

/-! ## Caption processing -/

theorem processMediaCaption_obj (host : Host) (r : Record) :
    processMediaCaption host (.obj r) =
      .ok (.obj (if truthy (getField r "caption") then
        setField "caption" (host.parseWithAttributeSchema (getField r "caption")) r else r)) := by
  cases h : truthy (getField r "caption") <;> simp [processMediaCaption, getProp, h]

theorem caption_mem_keys (r : Record) (h : truthy (getField r "caption") = true) :
    "caption" ∈ keys r := by
  rw [← lookup_isSome_iff]
  cases hl : lookup "caption" r with
  | none => simp [getField, hl, truthy] at h
  | some v => rfl

theorem getField_pick_caption (src : Record) :
    getField (pick src attrSet) "caption" = getField src "caption" := by
  have hmem : "caption" ∈ attrSet := by decide
  simp [getField, lookup_pick, hmem]

/-- What `processMediaCaption( slimImageObject( src ) )` returns for an object `src`. -/
theorem slim_caption_spec (host : Host) (src : Record) :
    ∃ r : Record,
      processMediaCaption host (.obj (pick src attrSet)) = .ok (.obj r) ∧
      keys r = attrSet.filter (fun k => decide (k ∈ keys src)) ∧
      (∀ k, k ∈ keys r → k ≠ "caption" → lookup k r = lookup k src) ∧
      lookup "caption" r =
        if truthy (getField src "caption") then
          some (host.parseWithAttributeSchema (getField src "caption"))
        else lookup "caption" src := by
  have hmem : "caption" ∈ attrSet := by decide
  cases h : truthy (getField src "caption") with
  | false =>
    refine ⟨pick src attrSet, ?_, keys_pick src attrSet, ?_, ?_⟩
    · rw [processMediaCaption_obj, getField_pick_caption, h]; rfl
    · intro k hk _
      rw [keys_pick] at hk
      have hk2 : k ∈ attrSet := (List.mem_filter.mp hk).1
      simp [lookup_pick, hk2]
    · simp [lookup_pick, hmem]
  | true =>
    have hin : "caption" ∈ keys (pick src attrSet) := by
      apply caption_mem_keys
      rw [getField_pick_caption]; exact h
    refine ⟨setField "caption" (host.parseWithAttributeSchema (getField src "caption"))
      (pick src attrSet), ?_, ?_, ?_, ?_⟩
    · rw [processMediaCaption_obj, getField_pick_caption, h]; rfl
    · rw [keys_setField _ _ _ hin, keys_pick]
    · intro k hk hne
      rw [keys_setField _ _ _ hin, keys_pick] at hk
      have hk2 : k ∈ attrSet := (List.mem_filter.mp hk).1
      rw [lookup_setField_of_ne _ _ _ _ hne]
      simp [lookup_pick, hk2]
    · rw [lookup_setField_self]; simp

/-! ## Mapping a callback over the selection -/

theorem mapExcept_of_forall₂ {α β : Type} (f : α → Except JSError β) (xs : List α)
    (ys : List β) (h : List.Forall₂ (fun x y => f x = .ok y) xs ys) :
    mapExcept f xs = .ok ys := by
  induction h with
  | nil => rfl
  | cons hxy _ ih => simp [mapExcept, hxy, ih]

theorem forall₂_of_forall_exists {α β : Type} (P : α → β → Prop) (h : ∀ x, ∃ y, P x y)
    (xs : List α) : ∃ ys, List.Forall₂ P xs ys := by
  induction xs with
  | nil => exact ⟨[], List.Forall₂.nil⟩
  | cons x rest ih =>
    obtain ⟨ys, hys⟩ := ih
    obtain ⟨y, hy⟩ := h x
    exact ⟨y :: ys, List.Forall₂.cons hy hys⟩

/-! ## The handler of "update" -/

/-- C1. `onUpdate` is a no-op on an empty selection: when the selection it works on (the
event argument if truthy, else the selection of the frame state) is absent or has no
models, it issues no call at all, so `props.onSelect` is not invoked, and it raises
nothing. -/
theorem onUpdate_empty_selection_noop (host : Host) (props : Props) (state : FrameState)
    (selections : Option Selection)
    (h : ∀ sel, selectedImages selections state = some sel → sel.models = []) :
    onUpdate host props state selections = ⟨[], none⟩ := by
  unfold onUpdate
  cases hs : selectedImages selections state with
  | none => rfl
  | some sel => simp [h sel hs]

theorem onUpdate_empty_selection_noop_witness :
    (∀ sel, selectedImages (some ⟨[]⟩) ⟨some ⟨[sampleImage]⟩⟩ = some sel → sel.models = []) ∧
    onUpdate sampleHost (propsMultiple (.bool true)) ⟨some ⟨[sampleImage]⟩⟩ (some ⟨[]⟩) =
      ⟨[], none⟩ :=
  have hyp : ∀ sel, selectedImages (some ⟨[]⟩) ⟨some ⟨[sampleImage]⟩⟩ = some sel →
      sel.models = [] := by
    intro sel hsel
    simp only [selectedImages, Option.some.injEq] at hsel
    rw [← hsel]
  ⟨hyp, onUpdate_empty_selection_noop sampleHost (propsMultiple (.bool true))
    ⟨some ⟨[sampleImage]⟩⟩ (some ⟨[]⟩) hyp⟩

/-- C3. For a non-empty selection, every record `onUpdate` hands to `props.onSelect` is
`processMediaCaption( pick( model.toJSON(), attrSet ) )` of its model: its keys are the
keys of the allow-list that the source record has, every kept field other than `caption`
has the value of the source record, and `caption` is the parsed source caption when that
is truthy and the source caption itself otherwise.  With `multiple` truthy the records of
all models are delivered as one list, otherwise the record of the first model. -/
theorem onUpdate_delivers_slim_records (host : Host) (props : Props) (state : FrameState)
    (selections : Option Selection) (sel : Selection)
    (hsel : selectedImages selections state = some sel) (hne : sel.models ≠ []) :
    ∃ records : List Record,
      List.Forall₂ (fun (m : Model) (r : Record) =>
        processMediaCaption host (.obj (pick m.toJSON attrSet)) = .ok (.obj r) ∧
        keys r = attrSet.filter (fun k => decide (k ∈ keys m.toJSON)) ∧
        (∀ k, k ∈ keys r → k ≠ "caption" → lookup k r = lookup k m.toJSON) ∧
        lookup "caption" r =
          if truthy (getField m.toJSON "caption") then
            some (host.parseWithAttributeSchema (getField m.toJSON "caption"))
          else lookup "caption" m.toJSON) sel.models records ∧
      onUpdate host props state selections =
        ⟨[.propsOnSelect (if truthy (withDefault props.multiple (.bool false)) then
            .arr (records.map .obj) else index (records.map .obj) 0)], none⟩ := by
  obtain ⟨records, hrec⟩ := forall₂_of_forall_exists _
    (fun m : Model => slim_caption_spec host m.toJSON) sel.models
  refine ⟨records, hrec, ?_⟩
  unfold onUpdate
  simp only [hsel]
  cases hm : sel.models with
  | nil => exact absurd hm hne
  | cons first rest =>
    rw [hm] at hrec
    cases hrec with
    | cons h0 hrest =>
      rename_i r0 rs
      have hall : List.Forall₂ (fun (m : Model) (y : JSVal) =>
          processMediaCaption host (.obj (slimImageObject m.toJSON)) = .ok y)
          (first :: rest) ((r0 :: rs).map .obj) := by
        rw [List.forall₂_map_right_iff]
        exact List.Forall₂.imp (fun _ _ hp => hp.1) (List.Forall₂.cons h0 hrest)
      cases hmul : truthy (withDefault props.multiple (.bool false)) with
      | true => simp [mapExcept_of_forall₂ _ _ _ hall]
      | false =>
        have h1 : processMediaCaption host (.obj (slimImageObject first.toJSON)) =
            .ok (.obj r0) := h0.1
        simp [h1, index]

theorem onUpdate_delivers_slim_records_witness :
    selectedImages none ⟨some sampleSelection⟩ = some sampleSelection ∧
    sampleSelection.models ≠ [] ∧
    ∃ records : List Record,
      List.Forall₂ (fun (m : Model) (r : Record) =>
        processMediaCaption sampleHost (.obj (pick m.toJSON attrSet)) = .ok (.obj r) ∧
        keys r = attrSet.filter (fun k => decide (k ∈ keys m.toJSON)) ∧
        (∀ k, k ∈ keys r → k ≠ "caption" → lookup k r = lookup k m.toJSON) ∧
        lookup "caption" r =
          if truthy (getField m.toJSON "caption") then
            some (sampleHost.parseWithAttributeSchema (getField m.toJSON "caption"))
          else lookup "caption" m.toJSON) sampleSelection.models records ∧
      onUpdate sampleHost (propsMultiple (.bool true)) ⟨some sampleSelection⟩ none =
        ⟨[.propsOnSelect (if truthy (withDefault (propsMultiple (.bool true)).multiple
            (.bool false)) then .arr (records.map .obj) else index (records.map .obj) 0)],
          none⟩ :=
  ⟨rfl, by simp [sampleSelection],
    onUpdate_delivers_slim_records sampleHost (propsMultiple (.bool true))
      ⟨some sampleSelection⟩ none sampleSelection rfl (by simp [sampleSelection])⟩

/-! ## The handler of "select" -/

/-- C2. On an empty selection the handler of "select" is not a no-op: with `multiple`
omitted it raises a `TypeError` (it reads `caption` of `attachment[ 0 ]`, which is
`undefined`), and with `multiple` true it invokes `props.onSelect` once, with the empty
list. -/
theorem onSelect_empty_selection_not_noop :
    onSelect sampleHost (propsMultiple .undefined) ⟨some ⟨[]⟩⟩ = ⟨[], some .typeError⟩ ∧
    onSelect sampleHost (propsMultiple (.bool true)) ⟨some ⟨[]⟩⟩ =
      ⟨[.propsOnSelect (.arr [])], none⟩ :=
  ⟨rfl, rfl⟩

/-- C4. The handler of "select" does not trim the record: for a selected attachment with
the fields `id`, `filename`, `caption` and `url` it delivers a record that still carries
`filename`, which is not in the allow-list. -/
theorem onSelect_keeps_fields_outside_allow_list :
    onSelect sampleHost (propsMultiple .undefined) ⟨some ⟨[sampleImage]⟩⟩ =
      ⟨[.propsOnSelect (.obj [("id", .num 7), ("filename", .str "a.png"),
          ("caption", .arr [.str "Sea"]), ("url", .str "/a.png")])], none⟩ ∧
    "filename" ∉ attrSet :=
  ⟨rfl, by decide⟩

/-! ## Both confirmation handlers -/

/-- C5. For a non-empty selection each confirmation handler invokes `props.onSelect`
exactly once and raises nothing.  The argument is decided by `props.multiple`, with
`false` as the default: when it is truthy the argument is the list of the records of the
selected models, one per model and in the order of the selection; when it is falsy the
argument is the record of the first model alone.  The record of a model is
`processMediaCaption( model.toJSON() )` for `onSelect` and
`processMediaCaption( slimImageObject( model.toJSON() ) )` for `onUpdate`. -/
theorem confirmation_calls_onSelect_once (host : Host) (props : Props) (state : FrameState)
    (selections : Option Selection) (held resolved : Selection)
    (hheld : state.selection = some held) (hne : held.models ≠ [])
    (hres : selectedImages selections state = some resolved) (hne2 : resolved.models ≠ []) :
    (∃ records : List JSVal,
      List.Forall₂ (fun (m : Model) (r : JSVal) =>
        processMediaCaption host (.obj m.toJSON) = .ok r) held.models records ∧
      records.length = held.models.length ∧
      onSelect host props state =
        ⟨[.propsOnSelect (if truthy (withDefault props.multiple (.bool false)) then
            .arr records else index records 0)], none⟩) ∧
    (∃ records : List JSVal,
      List.Forall₂ (fun (m : Model) (r : JSVal) =>
        processMediaCaption host (.obj (slimImageObject m.toJSON)) = .ok r)
        resolved.models records ∧
      records.length = resolved.models.length ∧
      onUpdate host props state selections =
        ⟨[.propsOnSelect (if truthy (withDefault props.multiple (.bool false)) then
            .arr records else index records 0)], none⟩) := by
  constructor
  · obtain ⟨records, hrec⟩ := forall₂_of_forall_exists
      (fun (m : Model) (r : JSVal) => processMediaCaption host (.obj m.toJSON) = .ok r)
      (fun m => ⟨_, processMediaCaption_obj host m.toJSON⟩) held.models
    refine ⟨records, hrec, hrec.length_eq.symm, ?_⟩
    have hall : mapExcept (processMediaCaption host) held.toJSON = .ok records := by
      apply mapExcept_of_forall₂
      unfold Selection.toJSON
      rw [List.forall₂_map_left_iff]
      exact hrec
    unfold onSelect
    simp only [hheld]
    cases hmul : truthy (withDefault props.multiple (.bool false)) with
    | true => simp [hall]
    | false =>
      cases hm : held.models with
      | nil => exact absurd hm hne
      | cons first rest =>
        rw [hm] at hrec
        cases hrec with
        | cons h0 hrest =>
          simp [Selection.toJSON, hm, index, h0]
  · obtain ⟨records, hrec⟩ := forall₂_of_forall_exists
      (fun (m : Model) (r : JSVal) =>
        processMediaCaption host (.obj (slimImageObject m.toJSON)) = .ok r)
      (fun m => ⟨_, processMediaCaption_obj host (slimImageObject m.toJSON)⟩)
      resolved.models
    refine ⟨records, hrec, hrec.length_eq.symm, ?_⟩
    unfold onUpdate
    simp only [hres]
    cases hm : resolved.models with
    | nil => exact absurd hm hne2
    | cons first rest =>
      rw [hm] at hrec
      have hall := mapExcept_of_forall₂ _ _ _ hrec
      cases hrec with
      | cons h0 hrest =>
        cases hmul : truthy (withDefault props.multiple (.bool false)) with
        | true => simp [hall]
        | false => simp [h0, index]

theorem confirmation_calls_onSelect_once_witness :
    (⟨some sampleSelection⟩ : FrameState).selection = some sampleSelection ∧
    sampleSelection.models ≠ [] ∧
    selectedImages (some ⟨[plainImage]⟩) ⟨some sampleSelection⟩ = some ⟨[plainImage]⟩ ∧
    (⟨[plainImage]⟩ : Selection).models ≠ [] ∧
    (∃ records : List JSVal,
      List.Forall₂ (fun (m : Model) (r : JSVal) =>
        processMediaCaption sampleHost (.obj m.toJSON) = .ok r)
        sampleSelection.models records ∧
      records.length = sampleSelection.models.length ∧
      onSelect sampleHost (propsMultiple .undefined) ⟨some sampleSelection⟩ =
        ⟨[.propsOnSelect (if truthy (withDefault (propsMultiple .undefined).multiple
            (.bool false)) then .arr records else index records 0)], none⟩) ∧
    (∃ records : List JSVal,
      List.Forall₂ (fun (m : Model) (r : JSVal) =>
        processMediaCaption sampleHost (.obj (slimImageObject m.toJSON)) = .ok r)
        (⟨[plainImage]⟩ : Selection).models records ∧
      records.length = (⟨[plainImage]⟩ : Selection).models.length ∧
      onUpdate sampleHost (propsMultiple .undefined) ⟨some sampleSelection⟩
          (some ⟨[plainImage]⟩) =
        ⟨[.propsOnSelect (if truthy (withDefault (propsMultiple .undefined).multiple
            (.bool false)) then .arr records else index records 0)], none⟩) :=
  ⟨rfl, by simp [sampleSelection], rfl, by simp,
    confirmation_calls_onSelect_once sampleHost (propsMultiple .undefined)
      ⟨some sampleSelection⟩ (some ⟨[plainImage]⟩) sampleSelection ⟨[plainImage]⟩
      rfl (by simp [sampleSelection]) rfl (by simp)⟩

/-! ## Caption processing on references -/

/-- C6. `processMediaCaption` changes nothing but the caption.  For an object whose caption
is falsy it returns the reference it was given and leaves the store as it was.  For an
object whose caption is truthy it returns a fresh reference to a new object with the same
keys, whose caption is the parsed caption and whose other fields are those of the input.
In both cases every object that was in the store, the input included, is unmodified. -/
theorem processMediaCaption_changes_caption_only (host : Host) (store : Store) (ref : Nat)
    (mediaObject : Record) (hget : store.get? ref = some mediaObject) :
    ∃ (store2 : Store) (ref2 : Nat) (result : Record),
      processMediaCaptionAt host store ref = some (store2, ref2) ∧
      store2.get? ref2 = some result ∧
      processMediaCaption host (.obj mediaObject) = .ok (.obj result) ∧
      store2.get? ref = some mediaObject ∧
      (∀ r, r < store.length → store2.get? r = store.get? r) ∧
      keys result = keys mediaObject ∧
      (∀ k, k ≠ "caption" → lookup k result = lookup k mediaObject) ∧
      (if truthy (getField mediaObject "caption") then
        ref2 ≠ ref ∧ ref2 = store.length ∧
        lookup "caption" result =
          some (host.parseWithAttributeSchema (getField mediaObject "caption"))
      else ref2 = ref ∧ store2 = store ∧ result = mediaObject) := by
  have hlt : ref < store.length := by
    rcases Nat.lt_or_ge ref store.length with h | h
    · exact h
    · rw [List.get?_eq_none.mpr h] at hget; cases hget
  cases h : truthy (getField mediaObject "caption") with
  | false =>
    refine ⟨store, ref, mediaObject, ?_, hget, ?_, hget, fun _ _ => rfl, rfl,
      fun _ _ => rfl, ?_⟩
    · unfold processMediaCaptionAt
      rw [hget]
      simp [h]
    · rw [processMediaCaption_obj, h]; rfl
    · simp
  | true =>
    refine ⟨store ++ [setField "caption"
        (host.parseWithAttributeSchema (getField mediaObject "caption")) mediaObject],
      store.length,
      setField "caption" (host.parseWithAttributeSchema (getField mediaObject "caption"))
        mediaObject, ?_, ?_, ?_, ?_, ?_, ?_, ?_, ?_⟩
    · unfold processMediaCaptionAt
      rw [hget]
      simp [h]
    · simp
    · rw [processMediaCaption_obj, h]; rfl
    · simp only [List.get?_eq_getElem?] at hget ⊢
      rw [List.getElem?_append_left hlt]; exact hget
    · intro r hr
      simp only [List.get?_eq_getElem?]
      rw [List.getElem?_append_left hr]
    · exact keys_setField _ _ _ (caption_mem_keys _ h)
    · intro k hk
      exact lookup_setField_of_ne _ _ _ _ hk
    · simp only [if_true]
      exact ⟨Nat.ne_of_gt hlt, trivial, lookup_setField_self _ _ _⟩

theorem processMediaCaption_changes_caption_only_witness :
    [plainImage.attributes, sampleImage.attributes].get? 1 = some sampleImage.attributes ∧
    ∃ (store2 : Store) (ref2 : Nat) (result : Record),
      processMediaCaptionAt sampleHost [plainImage.attributes, sampleImage.attributes] 1 =
        some (store2, ref2) ∧
      store2.get? ref2 = some result ∧
      processMediaCaption sampleHost (.obj sampleImage.attributes) = .ok (.obj result) ∧
      store2.get? 1 = some sampleImage.attributes ∧
      (∀ r, r < [plainImage.attributes, sampleImage.attributes].length →
        store2.get? r = [plainImage.attributes, sampleImage.attributes].get? r) ∧
      keys result = keys sampleImage.attributes ∧
      (∀ k, k ≠ "caption" → lookup k result = lookup k sampleImage.attributes) ∧
      (if truthy (getField sampleImage.attributes "caption") then
        ref2 ≠ 1 ∧ ref2 = [plainImage.attributes, sampleImage.attributes].length ∧
        lookup "caption" result =
          some (sampleHost.parseWithAttributeSchema
            (getField sampleImage.attributes "caption"))
      else ref2 = 1 ∧ store2 = [plainImage.attributes, sampleImage.attributes] ∧
        result = sampleImage.attributes) :=
  ⟨rfl, processMediaCaption_changes_caption_only sampleHost
    [plainImage.attributes, sampleImage.attributes] 1 sampleImage.attributes rfl⟩

/-! ## The constructor -/

/-- C7, as the code has it.  Outside gallery mode the constructor builds the dialog with
`wp.media` from a configuration object that carries the title (`props.title`, by default
the translation of "Select or Upload Media"), a button whose text is the translation of
"Select", the multiplicity (`props.multiple`, by default `false`), an empty selection,
and a library filter `{ type }` exactly when `props.type` is truthy.  In gallery mode it
builds the gallery frame from `{ frame: "select", mimeType: type, state: "gallery" }`
alone. -/
theorem construct_frame_configuration (host : Host) (props : Props) :
    if truthy (withDefault props.gallery (.bool false)) then
      (construct host props).frame =
        .galleryDetails [("frame", .str "select"), ("mimeType", props.type),
          ("state", .str "gallery")]
    else
      ∃ cfg : FrameConfig,
        (construct host props).frame = .media cfg ∧
        cfg.title = withDefault props.title (.str (host.i18n "Select or Upload Media")) ∧
        cfg.button = [("text", .str (host.i18n "Select"))] ∧
        cfg.multiple = withDefault props.multiple (.bool false) ∧
        cfg.selection.models = [] ∧
        (cfg.library.isSome = truthy props.type) ∧
        (∀ library, cfg.library = some library → library = [("type", props.type)]) := by
  cases h : truthy (withDefault props.gallery (.bool false)) with
  | true => simp [construct, h]
  | false =>
    simp only [Bool.false_eq_true, if_false]
    refine ⟨⟨withDefault props.title (.str (host.i18n "Select or Upload Media")),
      [("text", .str (host.i18n "Select"))], withDefault props.multiple (.bool false), ⟨[]⟩,
      if truthy props.type then some [("type", props.type)] else none⟩,
      by simp [construct, h], rfl, rfl, rfl, rfl, ?_, ?_⟩
    · cases ht : truthy props.type <;> simp
    · intro library hl
      cases ht : truthy props.type with
      | false => simp [ht] at hl
      | true =>
        simp only [ht, if_true, Option.some.injEq] at hl
        exact hl.symm

/-- C7, counterexample.  With `gallery` true the dialog is built from the three options
`frame`, `mimeType` and `state`: the options carry no title, no button, no multiplicity
and no library filter, although `props.type` is truthy. -/
theorem construct_gallery_drops_frameConfig :
    (construct sampleHost (propsGallery (.str "image") (.bool true))).frame =
      .galleryDetails [("frame", .str "select"), ("mimeType", .str "image"),
        ("state", .str "gallery")] ∧
    lookup "title" [("frame", .str "select"), ("mimeType", .str "image"),
        ("state", .str "gallery")] = none ∧
    lookup "button" [("frame", .str "select"), ("mimeType", .str "image"),
        ("state", .str "gallery")] = none ∧
    lookup "multiple" [("frame", .str "select"), ("mimeType", .str "image"),
        ("state", .str "gallery")] = none ∧
    lookup "library" [("frame", .str "select"), ("mimeType", .str "image"),
        ("state", .str "gallery")] = none ∧
    ¬ ∃ cfg : FrameConfig,
      (construct sampleHost (propsGallery (.str "image") (.bool true))).frame =
        .media cfg :=
  ⟨rfl, rfl, rfl, rfl, rfl, fun ⟨_, h⟩ => Frame.noConfusion h⟩

/-! ## Effects of the handlers on the selection -/

theorem onSelect_effects_callback_only (host : Host) (props : Props) (state : FrameState) :
    ∀ e ∈ (onSelect host props state).effects, ∃ arg, e = Effect.propsOnSelect arg := by
  unfold onSelect
  cases hs : state.selection with
  | none => simp
  | some sel =>
    cases hm : truthy (withDefault props.multiple (.bool false)) with
    | true =>
      cases hr : mapExcept (processMediaCaption host) sel.toJSON <;> simp [hm, hr]
    | false =>
      cases hr : processMediaCaption host (index sel.toJSON 0) <;> simp [hm, hr]

theorem onUpdate_effects_callback_only (host : Host) (props : Props) (state : FrameState)
    (selections : Option Selection) :
    ∀ e ∈ (onUpdate host props state selections).effects,
      ∃ arg, e = Effect.propsOnSelect arg := by
  unfold onUpdate
  cases hs : selectedImages selections state with
  | none => simp
  | some sel =>
    cases hl : sel.models with
    | nil => simp [hl]
    | cons first rest =>
      cases hm : truthy (withDefault props.multiple (.bool false)) with
      | true =>
        cases hr : mapExcept (fun model : Model =>
          processMediaCaption host (.obj (slimImageObject model.toJSON))) (first :: rest) <;>
          simp [hl, hm, hr]
      | false =>
        cases hr : processMediaCaption host (.obj (slimImageObject first.toJSON)) <;>
          simp [hl, hm, hr]

theorem no_mutation_of_callback_only (effects : List Effect)
    (h : ∀ e ∈ effects, ∃ arg, e = Effect.propsOnSelect arg) :
    ∀ e ∈ effects, e.mutatesSelection = false := by
  intro e he
  obtain ⟨arg, harg⟩ := h e he
  rw [harg]
  rfl

theorem any_mutates_of_no_mutation (effects : List Effect)
    (h : ∀ e ∈ effects, e.mutatesSelection = false) :
    effects.any Effect.mutatesSelection = false := by
  rw [List.any_eq_false]
  intro e he
  simp [h e he]

theorem selectionAfter_of_no_mutation (host : Host) (items : List JSVal)
    (effects : List Effect) (h : ∀ e ∈ effects, e.mutatesSelection = false) :
    selectionAfter host items effects = items := by
  unfold selectionAfter
  induction effects with
  | nil => rfl
  | cons e rest ih =>
    have he : e.mutatesSelection = false := h e (List.mem_cons_self _ _)
    have hrest : ∀ x ∈ rest, x.mutatesSelection = false :=
      fun x hx => h x (List.mem_cons_of_mem _ hx)
    cases e <;> first | exact ih hrest | simp [Effect.mutatesSelection] at he

/-- C8, as the code has it.  The handlers `onSelect` and `onUpdate` only read the
selection of the frame state: for all props and every frame state, every call they issue
is a call of `props.onSelect`, none of their calls adds to, removes from or otherwise
changes the selection, and the selection holds the same items after the handler as
before.  The same is true of `onOpen` when `props.value` is falsy, where `onOpen` issues
no call at all. -/
theorem handlers_leave_selection (host : Host) (props : Props) (state : FrameState)
    (selections : Option Selection) (items : List JSVal) (openProps : Props)
    (hval : truthy openProps.value = false) :
    ((∀ e ∈ (onSelect host props state).effects, ∃ arg, e = Effect.propsOnSelect arg) ∧
      (onSelect host props state).effects.any Effect.mutatesSelection = false ∧
      selectionAfter host items (onSelect host props state).effects = items) ∧
    ((∀ e ∈ (onUpdate host props state selections).effects,
        ∃ arg, e = Effect.propsOnSelect arg) ∧
      (onUpdate host props state selections).effects.any Effect.mutatesSelection = false ∧
      selectionAfter host items (onUpdate host props state selections).effects = items) ∧
    (onOpen host openProps state = ⟨[], none⟩ ∧
      selectionAfter host items (onOpen host openProps state).effects = items) := by
  have hopen : onOpen host openProps state = ⟨[], none⟩ := by simp [onOpen, hval]
  have hsel := onSelect_effects_callback_only host props state
  have hupd := onUpdate_effects_callback_only host props state selections
  refine ⟨⟨hsel, ?_, ?_⟩, ⟨hupd, ?_, ?_⟩, hopen, ?_⟩
  · exact any_mutates_of_no_mutation _ (no_mutation_of_callback_only _ hsel)
  · exact selectionAfter_of_no_mutation _ _ _ (no_mutation_of_callback_only _ hsel)
  · exact any_mutates_of_no_mutation _ (no_mutation_of_callback_only _ hupd)
  · exact selectionAfter_of_no_mutation _ _ _ (no_mutation_of_callback_only _ hupd)
  · rw [hopen]; rfl

theorem handlers_leave_selection_witness :
    truthy (propsValue (.bool true) (.num 0)).value = false ∧
    ((∀ e ∈ (onSelect sampleHost (propsMultiple (.bool true))
        ⟨some sampleSelection⟩).effects, ∃ arg, e = Effect.propsOnSelect arg) ∧
      (onSelect sampleHost (propsMultiple (.bool true)) ⟨some sampleSelection⟩).effects.any
        Effect.mutatesSelection = false ∧
      selectionAfter sampleHost [.num 7, .num 8]
        (onSelect sampleHost (propsMultiple (.bool true)) ⟨some sampleSelection⟩).effects =
        [.num 7, .num 8]) ∧
    ((∀ e ∈ (onUpdate sampleHost (propsMultiple (.bool true)) ⟨some sampleSelection⟩
        none).effects, ∃ arg, e = Effect.propsOnSelect arg) ∧
      (onUpdate sampleHost (propsMultiple (.bool true)) ⟨some sampleSelection⟩
        none).effects.any Effect.mutatesSelection = false ∧
      selectionAfter sampleHost [.num 7, .num 8]
        (onUpdate sampleHost (propsMultiple (.bool true)) ⟨some sampleSelection⟩
          none).effects = [.num 7, .num 8]) ∧
    (onOpen sampleHost (propsValue (.bool true) (.num 0)) ⟨some sampleSelection⟩ =
        ⟨[], none⟩ ∧
      selectionAfter sampleHost [.num 7, .num 8]
        (onOpen sampleHost (propsValue (.bool true) (.num 0))
          ⟨some sampleSelection⟩).effects = [.num 7, .num 8]) :=
  ⟨rfl, handlers_leave_selection sampleHost (propsMultiple (.bool true))
    ⟨some sampleSelection⟩ none [.num 7, .num 8] (propsValue (.bool true) (.num 0)) rfl⟩

/-- C8, counterexample.  With `props.value` equal to 5 and an empty selection in the
frame state, `onOpen` calls `selection.add`: its trace holds a call that changes the
selection, and in the sample environment the selection holds one item afterwards. -/
theorem onOpen_adds_to_selection :
    (onOpen sampleHost (propsValue .undefined (.num 5)) ⟨some ⟨[]⟩⟩).effects.any
      Effect.mutatesSelection = true ∧
    selectionAfter sampleHost []
      (onOpen sampleHost (propsValue .undefined (.num 5)) ⟨some ⟨[]⟩⟩).effects =
      [.num 5] :=
  ⟨rfl, rfl⟩

/-! ## The handler of "open" -/

theorem selectionAfter_append (host : Host) (items : List JSVal) (xs ys : List Effect) :
    selectionAfter host items (xs ++ ys) =
      selectionAfter host (selectionAfter host items xs) ys := by
  simp [selectionAfter, List.foldl_append]

theorem selectionAfter_addAttachment (host : Host) (ids items : List JSVal) :
    selectionAfter host items (ids.flatMap addAttachment) =
      ids.foldl host.selectionAdd items := by
  induction ids generalizing items with
  | nil => rfl
  | cons id rest ih =>
    rw [List.flatMap_cons, selectionAfter_append, List.foldl_cons, ← ih]
    rfl

/-- C9. `onOpen` pre-selects the current value.  When `props.value` is falsy it issues no
call, whatever the frame state.  When `props.multiple` is truthy, `props.value` is a list
of ids and the frame state has a selection, it gets and adds to that selection the
attachment of each id, in the order of `props.value`, and then requests the gallery
attachments for the string made of the ids in that same order with "," between them
(an `undefined` or `null` id contributes the empty string, every other id its string
conversion); the selection ends up as the ids added one after the other.  When
`props.multiple` is falsy and the frame state has a selection, it gets the attachment
whose id is `props.value`, fetches it and adds that one attachment. -/
theorem onOpen_preselects_value (host : Host) (props : Props) (state : FrameState) :
    (truthy props.value = false → onOpen host props state = ⟨[], none⟩) ∧
    (∀ ids : List JSVal, truthy props.multiple = true → props.value = .arr ids →
      state.selection.isSome = true →
      onOpen host props state =
        ⟨ids.flatMap (fun id => [Effect.attachment id, Effect.selectionAdd id]) ++
          [.galleryAttachments (String.intercalate "," (ids.map fun id =>
              match id with
              | .undefined => ""
              | .null => ""
              | v => host.toStr v)),
            .gallerySelectionMore], none⟩ ∧
      ∀ items, selectionAfter host items (onOpen host props state).effects =
        ids.foldl host.selectionAdd items) ∧
    (truthy props.multiple = false → truthy props.value = true →
      state.selection.isSome = true →
      onOpen host props state =
        ⟨[.attachment props.value, .attachmentFetch props.value,
          .selectionAdd props.value], none⟩ ∧
      ∀ items, selectionAfter host items (onOpen host props state).effects =
        host.selectionAdd items props.value) := by
  refine ⟨?_, ?_, ?_⟩
  · intro hval
    simp [onOpen, hval]
  · intro ids hmul hv hsome
    obtain ⟨held, hheld⟩ := Option.isSome_iff_exists.mp hsome
    have hout : onOpen host props state =
        ⟨ids.flatMap addAttachment ++ loadMultipleAttachments host ids, none⟩ := by
      have ht : truthy props.value = true := by rw [hv]; rfl
      unfold onOpen
      simp only [ht, hmul, hheld]
      rw [hv]
      rfl
    refine ⟨?_, ?_⟩
    · rw [hout]
      rfl
    · intro items
      rw [hout]
      show selectionAfter host items
        (ids.flatMap addAttachment ++ loadMultipleAttachments host ids) = _
      rw [selectionAfter_append, selectionAfter_addAttachment]
      rfl
  · intro hmul hval hsome
    obtain ⟨held, hheld⟩ := Option.isSome_iff_exists.mp hsome
    have hout : onOpen host props state =
        ⟨[.attachment props.value, .attachmentFetch props.value,
          .selectionAdd props.value], none⟩ := by
      simp [onOpen, hval, hmul, hheld]
    refine ⟨hout, ?_⟩
    intro items
    rw [hout]
    rfl

theorem onOpen_preselects_value_witness :
    (truthy (propsValue (.bool true) (.str "")).value = false ∧
      onOpen sampleHost (propsValue (.bool true) (.str "")) ⟨none⟩ = ⟨[], none⟩) ∧
    (truthy (propsValue (.bool true) (.arr [.num 3, .num 11])).multiple = true ∧
      (⟨some ⟨[]⟩⟩ : FrameState).selection.isSome = true ∧
      onOpen sampleHost (propsValue (.bool true) (.arr [.num 3, .num 11])) ⟨some ⟨[]⟩⟩ =
        ⟨[.attachment (.num 3), .selectionAdd (.num 3), .attachment (.num 11),
          .selectionAdd (.num 11), .galleryAttachments "3,11", .gallerySelectionMore],
          none⟩ ∧
      selectionAfter sampleHost [.num 1]
        (onOpen sampleHost (propsValue (.bool true) (.arr [.num 3, .num 11]))
          ⟨some ⟨[]⟩⟩).effects = [.num 1, .num 3, .num 11]) ∧
    (truthy (propsValue .undefined (.num 5)).multiple = false ∧
      truthy (propsValue .undefined (.num 5)).value = true ∧
      (⟨some ⟨[]⟩⟩ : FrameState).selection.isSome = true ∧
      onOpen sampleHost (propsValue .undefined (.num 5)) ⟨some ⟨[]⟩⟩ =
        ⟨[.attachment (.num 5), .attachmentFetch (.num 5), .selectionAdd (.num 5)],
          none⟩) :=
  ⟨⟨rfl, (onOpen_preselects_value sampleHost (propsValue (.bool true) (.str ""))
      ⟨none⟩).1 rfl⟩,
    ⟨rfl, rfl,
      ((onOpen_preselects_value sampleHost
        (propsValue (.bool true) (.arr [.num 3, .num 11])) ⟨some ⟨[]⟩⟩).2.1
          [.num 3, .num 11] rfl rfl rfl).1,
      ((onOpen_preselects_value sampleHost
        (propsValue (.bool true) (.arr [.num 3, .num 11])) ⟨some ⟨[]⟩⟩).2.1
          [.num 3, .num 11] rfl rfl rfl).2 [.num 1]⟩,
    ⟨rfl, rfl, rfl,
      ((onOpen_preselects_value sampleHost (propsValue .undefined (.num 5))
        ⟨some ⟨[]⟩⟩).2.2 rfl rfl rfl).1⟩⟩

end MediaUpload

namespace ChangeDetection

theorem foldl_handleOnDialog (s : Locals) (dialogs : List Nat) :
    dialogs.foldl handleOnDialog s =
      ⟨s.accepted ++ dialogs, s.hadDialog || !dialogs.isEmpty⟩ := by
  induction dialogs generalizing s with
  | nil => simp
  | cons d rest ih => simp [List.foldl_cons, ih, handleOnDialog]

/-- C10. For a reload that completes, `assertIsDirty( isDirty )` accepts every dialog
raised during the reload and succeeds exactly when "some dialog was raised" equals
`isDirty`; otherwise it fails on its expectation, with `hadDialog` as the received and
`isDirty` as the expected value.  So `assertIsDirty( false )` fails when a dialog appears
and `assertIsDirty( true )` fails when none does.  The listener is removed either way. -/
theorem assertIsDirty_checks_dialog (isDirty : Bool) (reload : Reload)
    (hdone : reload.completes = true) :
    (assertIsDirty isDirty reload).accepted = reload.dialogs ∧
    (assertIsDirty isDirty reload).listening = false ∧
    ((assertIsDirty isDirty reload).result = .ok () ↔
      decide (reload.dialogs ≠ []) = isDirty) ∧
    (decide (reload.dialogs ≠ []) ≠ isDirty →
      (assertIsDirty isDirty reload).result =
        .error (.expectation (decide (reload.dialogs ≠ [])) isDirty)) := by
  obtain ⟨dialogs, completes⟩ := reload
  simp only at hdone
  subst hdone
  cases dialogs <;> cases isDirty <;>
    simp [assertIsDirty, foldl_handleOnDialog, handleOnDialog]

theorem assertIsDirty_checks_dialog_witness :
    (⟨[4], true⟩ : Reload).completes = true ∧
    (assertIsDirty false ⟨[4], true⟩).accepted = (⟨[4], true⟩ : Reload).dialogs ∧
    (assertIsDirty false ⟨[4], true⟩).listening = false ∧
    ((assertIsDirty false ⟨[4], true⟩).result = .ok () ↔
      decide ((⟨[4], true⟩ : Reload).dialogs ≠ []) = false) ∧
    (decide ((⟨[4], true⟩ : Reload).dialogs ≠ []) ≠ false →
      (assertIsDirty false ⟨[4], true⟩).result =
        .error (.expectation (decide ((⟨[4], true⟩ : Reload).dialogs ≠ [])) false)) :=
  ⟨rfl, assertIsDirty_checks_dialog false ⟨[4], true⟩ rfl⟩

end ChangeDetection
